import Mathlib

/-!
Shallow embedding of the review-fetching core of `google-reviews-iframe`
(`src/lib/shared.js`, `src/fetch-google-reviews.js`,
`src/fetch-trustpilot-reviews.js`, the Facebook fetcher, and the shared
orchestrator helpers), together with theorems settling the frozen claims.

Modelling conventions:
- JS strings are Lean `String` (operated on through their `List Char` data);
  only ASCII case mapping is needed by the embedded code paths.
- A JS `Date` value is `Option Int`: `some ms` is a valid date holding `ms`
  milliseconds since the Unix epoch, `none` is an Invalid Date.
- A raw-record field that may be `undefined`/`null` is an `Option`;
  JS truthiness of strings (`""` falsy) and numbers (`0` falsy) is modelled
  explicitly in the `jsOr...` helpers.
- JS numbers appearing in the embedded code (star ratings, counts,
  timestamps) are integral in every code path the claims touch, so they are
  modelled as `Int`.
- File-system state is an association list from paths to file contents;
  network traffic is an oracle function plus explicit call counters.
-/

namespace GRI

/-! ## JS string primitives (character-list level) -/

/-- Whitespace per the JS `\s` class / `String.prototype.trim`
(ASCII part plus NBSP; sufficient for the embedded code paths). -/
def jsWsChar (c : Char) : Bool :=
  c == ' ' || c == '\t' || c == '\n' || c == '\r' ||
  c == '\x0b' || c == '\x0c' || c == ' '

/-- Source `s.startsWith(p)` on character lists (first argument is the string,
second the candidate leading segment). -/
def startsWithCh : List Char → List Char → Bool
  | _, [] => true
  | [], _ :: _ => false
  | a :: as, b :: bs => a == b && startsWithCh as bs

/-- Source `s.endsWith(p)` on character lists. -/
def endsWithCh (s p : List Char) : Bool :=
  startsWithCh s.reverse p.reverse

/-- Source `s.toLowerCase()` (ASCII case mapping, as used by the embedded code). -/
def lowerCh (l : List Char) : List Char :=
  l.map Char.toLower

/-- Left part of `trim`: drop leading whitespace. -/
def trimLeftCh (l : List Char) : List Char :=
  l.dropWhile jsWsChar

/-- Right part of `trim`: drop trailing whitespace. -/
def trimRightCh (l : List Char) : List Char :=
  (l.reverse.dropWhile jsWsChar).reverse

/-- Source `s.trim()` on character lists. -/
def jsTrimCh (l : List Char) : List Char :=
  trimRightCh (trimLeftCh l)

/-- Source `s.trim()` on strings. -/
def jsTrim (s : String) : String :=
  ⟨jsTrimCh s.data⟩

/-- JS `a || b` where `a` is a possibly-absent string field
(`undefined`, `null` and `""` select the default). -/
def jsOrS (a : Option String) (d : String) : String :=
  match a with
  | none => d
  | some s => if s = "" then d else s

/-- JS `a || b` where `a` is a possibly-absent number
(`undefined`, `NaN` — modelled as `none` — and `0` select the default). -/
def jsOrI (a : Option Int) (d : Int) : Int :=
  match a with
  | none => d
  | some n => if n = 0 then d else n

/-- Numeric value of a decimal digit character. -/
def digitValCh (c : Char) : Nat := c.toNat - 48

/-- Decimal value of a digit run. -/
def digitsToNat (l : List Char) : Nat :=
  l.foldl (fun acc c => 10 * acc + digitValCh c) 0

/-- Source `Number.parseInt(s, 10)`: skip leading whitespace, optional sign,
then a maximal digit run; `none` models `NaN`. -/
def jsParseInt (s : String) : Option Int :=
  let cs := s.data.dropWhile jsWsChar
  let signDigits : Int × List Char :=
    match cs with
    | '-' :: r => (-1, r)
    | '+' :: r => (1, r)
    | r => (1, r)
  let ds := signDigits.2.takeWhile Char.isDigit
  if ds = [] then none else some (signDigits.1 * (digitsToNat ds : Int))

/-- Source `Number.parseInt` applied to a possibly-absent field
(`parseInt(undefined, 10)` is `NaN`). -/
def jsParseIntOpt (s : Option String) : Option Int :=
  match s with
  | none => none
  | some str => jsParseInt str

/-! ## JS Date: epoch-millisecond model and ISO formatting -/

/-- A JS `Date` value: `some ms` (epoch milliseconds) or Invalid Date. -/
abbrev JSDate := Option Int

/-- Milliseconds per day. -/
def msPerDay : Int := 86400000

/-- Left-pad a natural number with zeros to the given width. -/
def padZeros (w : Nat) (n : Nat) : String :=
  let s := toString n
  ⟨List.replicate (w - s.length) '0'⟩ ++ s

/-- Civil date (year, month, day) of a day count since 1970-01-01
(Gregorian, proleptic; the standard days-to-civil algorithm). -/
def civilFromDays (z0 : Int) : Int × Int × Int :=
  let z := z0 + 719468
  let era := Int.fdiv z 146097
  let doe := z - era * 146097
  let yoe := Int.fdiv (doe - Int.fdiv doe 1460 + Int.fdiv doe 36524 - Int.fdiv doe 146096) 365
  let y := yoe + era * 400
  let doy := doe - (365 * yoe + Int.fdiv yoe 4 - Int.fdiv yoe 100)
  let mp := Int.fdiv (5 * doy + 2) 153
  let d := doy - Int.fdiv (153 * mp + 2) 5 + 1
  let m := mp + (if mp < 10 then 3 else -9)
  (y + (if m ≤ 2 then 1 else 0), m, d)

/-- Source `date.toISOString().split("T")[0]` for a valid date:
the UTC calendar date as `YYYY-MM-DD`. -/
def formatDateYMD (ms : Int) : String :=
  let days := Int.fdiv ms msPerDay
  let ymd := civilFromDays days
  padZeros 4 ymd.1.toNat ++ "-" ++ padZeros 2 ymd.2.1.toNat ++ "-" ++ padZeros 2 ymd.2.2.toNat

/-- Source `date.toISOString()` for a valid date (UTC). -/
def isoString (ms : Int) : String :=
  let tod := (Int.emod ms msPerDay).toNat
  formatDateYMD ms ++ "T" ++
    padZeros 2 (tod / 3600000) ++ ":" ++
    padZeros 2 (tod / 60000 % 60) ++ ":" ++
    padZeros 2 (tod / 1000 % 60) ++ "." ++
    padZeros 3 (tod % 1000) ++ "Z"

/-! ## Canonical Review and raw platform records -/

/-- Canonical normalized review (`§3` of the module's data model).
The Trustpilot/Facebook-only passthrough fields default to `none`. -/
structure Review where
  content : String
  date : JSDate
  rating : Int
  author : String
  authorUrl : String
  photoUrl : String
  userId : Option String
  reviewTitle : Option String := none
  isRecommended : Option Bool := none
  deriving DecidableEq

/-- Raw Google review record (fields read by `normalizeGoogleReview`).
Date-string fields are represented by their `new Date(...)` parse result. -/
structure RawGoogleReview where
  text : Option String := none
  reviewText : Option String := none
  publishedAtDate : Option JSDate := none
  stars : Option Int := none
  rating : Option Int := none
  name : Option String := none
  authorName : Option String := none
  reviewerUrl : Option String := none
  authorUrl : Option String := none
  reviewerPhotoUrl : Option String := none
  userPhotoUrl : Option String := none
  reviewerAvatar : Option String := none
  deriving DecidableEq

/-- Raw Facebook `user` object. -/
structure RawFbUser where
  id : Option String := none
  name : Option String := none
  profileUrl : Option String := none
  profilePic : Option String := none
  deriving DecidableEq

/-- Raw Facebook review record (fields read by `normalizeFacebookReview`). -/
structure RawFacebookReview where
  user : Option RawFbUser := none
  text : Option String := none
  date : Option JSDate := none
  url : Option String := none
  isRecommended : Option Bool := none
  deriving DecidableEq

/-- Raw Trustpilot review record (fields read by `normalizeTrustpilotReview`). -/
structure RawTrustpilotReview where
  reviewTitle : Option String := none
  reviewText : Option String := none
  date : Option JSDate := none
  ratingValue : Option String := none
  name : Option String := none
  url : Option String := none
  avatar : Option String := none
  reviewId : Option String := none
  deriving DecidableEq

/-! ## Google normalizer (`src/fetch-google-reviews.js`) -/

/-- The literal `/contrib/` path marker matched by `extractGoogleUserId`. -/
def contribPat : List Char := "/contrib/".data

/-- First-match scan for `/\/contrib\/(\d+)/`: at each position require the
marker immediately followed by at least one digit; capture the maximal
digit run. -/
def findContrib : List Char → Option (List Char)
  | [] => none
  | c :: rest =>
    if startsWithCh (c :: rest) contribPat then
      let ds := ((c :: rest).drop contribPat.length).takeWhile Char.isDigit
      if ds = [] then findContrib rest else some ds
    else findContrib rest

/-- Source `extractGoogleUserId(authorUrl)` from `src/lib/shared.js`. -/
def extractGoogleUserId (authorUrl : String) : Option String :=
  if authorUrl = "" then none
  else (findContrib authorUrl.data).map (fun ds => (⟨ds⟩ : String))

/-- Source `normalizeGoogleReview(review)`; `now` is the clock value used by the
`new Date()` defaults. -/
def normalizeGoogleReview (r : RawGoogleReview) (now : Int) : Review :=
  let authorUrl := jsOrS r.reviewerUrl (jsOrS r.authorUrl "")
  { content := jsOrS r.text (jsOrS r.reviewText "")
    date := match r.publishedAtDate with
      | none => some now
      | some d => d
    rating := jsOrI r.stars (jsOrI r.rating 0)
    author := jsOrS r.name (jsOrS r.authorName "Anonymous")
    authorUrl := authorUrl
    photoUrl := jsOrS r.reviewerPhotoUrl (jsOrS r.userPhotoUrl (jsOrS r.reviewerAvatar ""))
    userId := extractGoogleUserId authorUrl }

/-! ## Facebook normalizer (Facebook fetch module) -/

/-- Source `extractFacebookUserId(user)`: numeric ids become `fb-<id>`, other ids
`fb-<first 20 chars>`, missing user or id gives `null`. -/
def extractFacebookUserId (user : Option RawFbUser) : Option String :=
  match user with
  | none => none
  | some u =>
    match u.id with
    | none => none
    | some i =>
      if i = "" then none
      else if i.data.all Char.isDigit then some ("fb-" ++ i)
      else some ("fb-" ++ (⟨i.data.take 20⟩ : String))

/-- Source `normalizeFacebookReview(review)`. -/
def normalizeFacebookReview (r : RawFacebookReview) (now : Int) : Review :=
  { content := jsOrS r.text ""
    date := match r.date with
      | none => some now
      | some d => d
    rating := if r.isRecommended = some true then 5 else 1
    author := jsOrS (r.user.bind (·.name)) "Anonymous"
    authorUrl := jsOrS r.url (jsOrS (r.user.bind (·.profileUrl)) "")
    photoUrl := jsOrS (r.user.bind (·.profilePic)) ""
    userId := extractFacebookUserId r.user
    isRecommended := r.isRecommended }

/-! ## Trustpilot normalizer (`src/fetch-trustpilot-reviews.js`) -/

/-- Characters the regex `.` metacharacter does not match in JS. -/
def reDotOk (c : Char) : Bool :=
  !(c == '\n' || c == '\r' || c == ' ' || c == ' ')

/-- Length of the ellipsis suffix matched by `(\.{3}|…\.?)$`
(longest matching suffix, which the non-greedy `(.+?)` selects). -/
def ellipsisTailLen (l : List Char) : Option Nat :=
  if endsWithCh l "...".data then some 3
  else if endsWithCh l "….".data then some 2
  else if endsWithCh l "…".data then some 1
  else none

/-- Capture group of `/^(.+?)(\.{3}|…\.?)$/` applied to the title:
the (nonempty, newline-free) part before the ellipsis. -/
def ellipsisMatch (l : List Char) : Option (List Char) :=
  match ellipsisTailLen l with
  | none => none
  | some n =>
    let p := l.take (l.length - n)
    if p ≠ [] ∧ p.all reDotOk then some p else none

/-- Source `shouldStripTitle(title, body)`: the body already begins with the
(possibly ellipsis-truncated) title, case-insensitively. -/
def shouldStripTitle (title body : String) : Bool :=
  let lowerBody := lowerCh body.data
  if startsWithCh lowerBody (lowerCh title.data) then true
  else
    match ellipsisMatch title.data with
    | some p => startsWithCh lowerBody (lowerCh (jsTrimCh p))
    | none => false

/-- Source `/[.!?]$/.test(title)`. -/
def endsWithPunct (title : String) : Bool :=
  match title.data.getLast? with
  | some c => c == '.' || c == '!' || c == '?'
  | none => false

/-- Source `buildTrustpilotContent(reviewTitle, reviewText)`. -/
def buildTrustpilotContent (reviewTitle reviewText : Option String) : String :=
  let body := jsOrS reviewText ""
  match reviewTitle with
  | none => body
  | some t =>
    if t = "" then body
    else
      let title := jsTrim t
      if shouldStripTitle title body then body
      else
        let title2 := if endsWithPunct title then title else title ++ "."
        if body = "" then title2 else title2 ++ "\n\n" ++ body

/-- Source `extractTrustpilotUserId(review)`. -/
def extractTrustpilotUserId (r : RawTrustpilotReview) : Option String :=
  match r.reviewId with
  | none => none
  | some i => if i = "" then none else some ("tp-" ++ i)

/-- Source `normalizeTrustpilotReview(review)`. -/
def normalizeTrustpilotReview (r : RawTrustpilotReview) (now : Int) : Review :=
  { content := buildTrustpilotContent r.reviewTitle r.reviewText
    date := match r.date with
      | none => some now
      | some d => d
    rating := jsOrI (jsParseIntOpt r.ratingValue) 0
    author := jsOrS r.name "Anonymous"
    authorUrl := jsOrS r.url ""
    photoUrl := jsOrS r.avatar ""
    userId := extractTrustpilotUserId r
    reviewTitle := match r.reviewTitle with
      | none => none
      | some t => if t = "" then none else some t }

/-! ## Trimmedness predicate (for the content-trimming claims) -/

/-- The first character, if any, is not whitespace. -/
def noLeadWsB (l : List Char) : Bool :=
  match l.head? with
  | none => true
  | some c => !jsWsChar c

/-- A string with no leading and no trailing whitespace. -/
def isTrimmedS (s : String) : Prop :=
  noLeadWsB s.data = true ∧ noLeadWsB s.data.reverse = true

instance (s : String) : Decidable (isTrimmedS s) := by
  unfold isTrimmedS; infer_instance

/-! ## File-system and network world model -/

/-- A stored review file (`buildReviewData` output, JSON on disk). -/
structure StoredReview where
  author : String
  authorUrl : String
  rating : Int
  content : String
  dateIso : String
  userId : Option String
  thumbnail : Option String
  source : String
  deriving DecidableEq

/-- Contents of a file in the modelled tree. -/
inductive FileContent where
  | img (bytes : List Nat)
  | review (r : StoredReview)
  deriving DecidableEq

/-- Observable world: file tree plus effect counters.
`netCalls` counts outgoing HTTP requests (primary GET or curl fallback);
`downloadCalls` counts entries into `downloadAndProcessImage`. -/
structure World where
  files : List (String × FileContent)
  netCalls : Nat
  downloadCalls : Nat
  deriving DecidableEq

/-- Source `fs.existsSync(p)` over the modelled tree. -/
def existsSync (files : List (String × FileContent)) (p : String) : Bool :=
  files.any (fun f => f.1 == p)

/-- Write (or overwrite) a file. -/
def writeFileW (p : String) (c : FileContent) (w : World) : World :=
  { w with files := (p, c) :: w.files }

/-- Outcome of one HTTP GET in the image pipeline. -/
inductive NetResult where
  | errDns
  | errOther
  | timeout
  | resp (status : Nat) (location : Option String) (body : List Nat)

/-- External collaborators of the thumbnail pipeline: the network, the
`sharp` resize/encode step (`none` models a decode/encode failure) and the
`curl -s -L` fallback body fetch. -/
structure NetEnv where
  net : String → NetResult
  sharp : Nat → List Nat → Option (List Nat)
  curl : String → Option (List Nat)

/-- Source `CONFIG.imagesDir` (relative to the repository root). -/
def imagesDir : String := "images/reviewers"

/-- Derived 1x/2x output paths for a user id (`getImagePaths`). -/
structure ImagePaths where
  filepath1x : String
  filepath2x : String
  deriving DecidableEq

/-- Source `getImagePaths(userId)`. -/
def getImagePaths (userId : String) : ImagePaths :=
  { filepath1x := imagesDir ++ "/" ++ userId ++ ".webp"
    filepath2x := imagesDir ++ "/" ++ userId ++ "@2x.webp" }

/-- Source `imageFilesExist(paths)`. -/
def imageFilesExist (files : List (String × FileContent)) (p : ImagePaths) : Bool :=
  existsSync files p.filepath1x && existsSync files p.filepath2x

/-- Truthiness of both image-download inputs (`validateImageInputs`). -/
def validateImageInputs (url userId : String) : Bool :=
  url ≠ "" && userId ≠ ""

/-- Result of parsing a URL (`new URL(...)`); only the scheme matters to the
embedded code (protocol-module selection). -/
structure UrlObj where
  protocol : String
  deriving DecidableEq

/-- Scheme characters after the leading letter. -/
def schemeRest : List Char → Option (List Char)
  | [] => none
  | c :: r =>
    if c = ':' then some []
    else if c.isAlphanum || c == '+' || c == '-' || c == '.' then
      (schemeRest r).map (c :: ·)
    else none

/-- Source `parseUrlSafe(url)`: approximation of the WHATWG URL parser keeping only
scheme validation (letter then letters/digits/`+`/`-`/`.` then `:`);
`none` models the caught `TypeError`. Only used to gate the network branch. -/
def parseUrlSafe (url : String) : Option UrlObj :=
  match url.data with
  | [] => none
  | c :: r =>
    if c.isAlpha then
      (schemeRest r).map (fun s => { protocol := (⟨lowerCh (c :: s)⟩ : String) ++ ":" })
    else none

/-- Truthiness of a possibly-absent header value. -/
def locTruthy (loc : Option String) : Bool :=
  match loc with
  | none => false
  | some l => l ≠ ""

/-- Source `isRedirect(response)`. -/
def isRedirectB (status : Nat) (location : Option String) : Bool :=
  300 ≤ status && status < 400 && locTruthy location

/-- Source `processImageBuffer(buffer, paths)`: write the 48px output then the 96px
output; a `sharp` failure at either step aborts (caught by the caller). -/
def processImageBuffer (env : NetEnv) (buffer : List Nat) (p : ImagePaths) (w : World) :
    Bool × World :=
  match env.sharp 48 buffer with
  | none => (false, w)
  | some o1 =>
    let w1 := writeFileW p.filepath1x (.img o1) w
    match env.sharp 96 buffer with
    | none => (false, w1)
    | some o2 => (true, writeFileW p.filepath2x (.img o2) w1)

/-- Source `handleImageResponse(response, paths, userId, resolve)`: only status 200
is processed; everything else resolves `false`. -/
def handleImageResponse (env : NetEnv) (status : Nat) (body : List Nat)
    (p : ImagePaths) (w : World) : Bool × World :=
  if status ≠ 200 then (false, w)
  else processImageBuffer env body p w

/-- Source `createResponseHandler(paths, userId, resolve)` applied to a response;
`retry` is the recursive re-entry of `downloadAndProcessImage` used on
redirects. -/
def createResponseHandler (env : NetEnv) (retry : String → World → Bool × World)
    (p : ImagePaths) (status : Nat) (location : Option String) (body : List Nat)
    (w : World) : Bool × World :=
  if isRedirectB status location then retry (location.getD "") w
  else handleImageResponse env status body p w

/-- Source `downloadImageWithCurl(url, filepath1x, filepath2x)`: fetch the body via
curl and run the same two resize/encode steps; any failure gives `false`. -/
def downloadImageWithCurl (env : NetEnv) (url : String) (p : ImagePaths) (w : World) :
    Bool × World :=
  let w := { w with netCalls := w.netCalls + 1 }
  match env.curl url with
  | none => (false, w)
  | some buffer => processImageBuffer env buffer p w

/-- Source `createImageErrorHandler(url, paths, resolve)`: DNS errors fall back to
curl, anything else resolves `false`. -/
def createImageErrorHandler (env : NetEnv) (url : String) (p : ImagePaths)
    (isDns : Bool) (w : World) : Bool × World :=
  if isDns then downloadImageWithCurl env url p w else (false, w)

/-- Result of `checkImagePreconditions(url, userId)`. -/
inductive Precond where
  | halt (result : Bool)
  | proceed (paths : ImagePaths) (urlObj : UrlObj)

/-- Source `checkImagePreconditions(url, userId)`: input truthiness, then the
both-outputs-exist idempotency short-circuit, then URL parseability. -/
def checkImagePreconditions (url userId : String) (files : List (String × FileContent)) :
    Precond :=
  if !validateImageInputs url userId then .halt false
  else
    let paths := getImagePaths userId
    if imageFilesExist files paths then .halt true
    else
      match parseUrlSafe url with
      | none => .halt false
      | some u => .proceed paths u

/-- Source `downloadAndProcessImage(url, userId)`. The source recurses unboundedly
on redirects; `fuel` bounds that recursion in the model (fuel exhaustion
yields `false`). Entries are counted in `downloadCalls`, issued requests in
`netCalls`. -/
def downloadAndProcessImage (env : NetEnv) :
    Nat → String → String → World → Bool × World
  | 0, _, _, w => (false, w)
  | fuel + 1, url, userId, w =>
    let w := { w with downloadCalls := w.downloadCalls + 1 }
    match checkImagePreconditions url userId w.files with
    | .halt r => (r, w)
    | .proceed paths _u =>
      let w := { w with netCalls := w.netCalls + 1 }
      match env.net url with
      | .timeout => (false, w)
      | .errDns => createImageErrorHandler env url paths true w
      | .errOther => createImageErrorHandler env url paths false w
      | .resp status location body =>
        createResponseHandler env
          (fun u2 w2 => downloadAndProcessImage env fuel u2 userId w2)
          paths status location body w

/-! ## Review store (`formatFilename`, `saveReview`) -/

/-- Keep lowercase letters, digits and whitespace (`[^a-z0-9\s]` removal
after `toLowerCase`). -/
def slugKeep (c : Char) : Bool :=
  ('a' ≤ c && c ≤ 'z') || ('0' ≤ c && c ≤ '9') || jsWsChar c

/-- Replace each maximal whitespace run by a single `-` (`\s+` → `-`):
inside a run every character but the last is dropped, the last becomes `-`. -/
def dashWsRuns : List Char → List Char
  | [] => []
  | [c] => if jsWsChar c then ['-'] else [c]
  | c :: d :: r =>
    if jsWsChar c && jsWsChar d then dashWsRuns (d :: r)
    else (if jsWsChar c then '-' else c) :: dashWsRuns (d :: r)

/-- Source `formatFilename(name, date)`; `now` feeds the `new Date()` fallback used
for invalid dates. -/
def formatFilename (name : String) (date : JSDate) (now : Int) : String :=
  let base := if name = "" then "anonymous" else name
  let safeName : String := ⟨(dashWsRuns ((lowerCh base.data).filter slugKeep)).take 30⟩
  let safeDate := match date with
    | some ms => formatDateYMD ms
    | none => formatDateYMD now
  safeName ++ "-" ++ safeDate ++ ".json"

/-- Source `tryDownloadThumbnail(review)`: skip when `userId` or `photoUrl` is
falsy, otherwise acquire and report the public thumbnail path. -/
def tryDownloadThumbnail (env : NetEnv) (fuel : Nat) (r : Review) (w : World) :
    Option String × World :=
  match r.userId with
  | none => (none, w)
  | some uid =>
    if uid = "" ∨ r.photoUrl = "" then (none, w)
    else
      let res := downloadAndProcessImage env fuel r.photoUrl uid w
      (if res.1 then some ("/images/reviewers/" ++ uid ++ ".webp") else none, res.2)

/-- Source `buildReviewData(review, thumbnailPath, source)`:
`review.date.toISOString()` throws a `RangeError` on an Invalid Date. -/
def buildReviewData (r : Review) (thumbnailPath : Option String) (source : String) :
    Except String StoredReview :=
  match r.date with
  | none => .error "Invalid time value"
  | some ms =>
    .ok { author := r.author
          authorUrl := r.authorUrl
          rating := r.rating
          content := r.content
          dateIso := isoString ms
          userId := r.userId
          thumbnail := thumbnailPath
          source := source }

/-- Source `saveReview(review, outputDir, source)`: dedup on the derived filename,
then thumbnail acquisition, then the JSON write. The `Except` carries a
thrown `RangeError` from `buildReviewData`; effects performed before the
throw stay in the returned world. -/
def saveReview (env : NetEnv) (fuel : Nat) (r : Review) (outputDir source : String)
    (now : Int) (w : World) : Except String Bool × World :=
  let filepath := outputDir ++ "/" ++ formatFilename r.author r.date now
  if existsSync w.files filepath then (.ok false, w)
  else
    let td := tryDownloadThumbnail env fuel r w
    match buildReviewData r td.1 source with
    | .error e => (.error e, td.2)
    | .ok data => (.ok true, writeFileW filepath (.review data) td.2)

/-! ## Incremental fetch planner (`getLatestReviewDate`, `shouldFetch`) -/

/-- One directory entry as seen by `getLatestReviewDate`:
`content = none` models a file `readJsonSafe` fails on (unreadable or
invalid JSON); `content = some d` models parsed JSON whose `date` field
parses to the JS date `d` (so `some none` is a missing or unparseable
date skipped by `parseDateSafe`). -/
structure DirFile where
  name : String
  content : Option JSDate
  deriving DecidableEq

/-- The valid parsed dates of a directory: `.json` files only, unreadable
files and invalid dates compacted away. -/
def validReviewDates (files : List DirFile) : List Int :=
  ((files.filter (fun f => endsWithCh f.name.data ".json".data)).filterMap
    (fun f => f.content)).filterMap id

/-- The source's `reduce((max, d) => (d > max ? d : max), dates[0])`. -/
def foldMaxDate (d0 : Int) (l : List Int) : Int :=
  l.foldl (fun mx d => if d > mx then d else mx) d0

/-- Source `getLatestReviewDate(businessDir)`: `none` models a missing directory;
otherwise the maximum valid review date plus one day, as `YYYY-MM-DD`
(`addDays(1)` modelled as +24h, which matches `setDate` under UTC). -/
def getLatestReviewDate (dir : Option (List DirFile)) : Option String :=
  match dir with
  | none => none
  | some files =>
    match validReviewDates files with
    | [] => none
    | d0 :: _ =>
      some (formatDateYMD (foldMaxDate d0 (validReviewDates files) + msPerDay))

/-- Business fields consulted by `shouldFetch`: the parsed values of the
generic `last_fetched` timestamp and of the per-platform
`last_fetched_<source>` timestamps (absent or empty string is `none`). -/
structure BizFetch where
  last_fetched : Option Int
  last_fetched_by : String → Option Int
  fetch_frequency_days : Int

/-- JS `a || b` on two possibly-absent timestamp fields. -/
def jsOrOpt (a b : Option Int) : Option Int :=
  match a with
  | none => b
  | some v => some v

/-- Source `shouldFetch(business, source)`: fetch when no timestamp exists, or when
`Math.floor((Date.now() - lastFetched) / 86400000)` reaches the configured
frequency. -/
def shouldFetch (now : Int) (b : BizFetch) (source : Option String) : Bool :=
  let lastFetched := match source with
    | some s => jsOrOpt (b.last_fetched_by s) b.last_fetched
    | none => jsOrOpt b.last_fetched b.last_fetched
  match lastFetched with
  | none => true
  | some last => decide (b.fetch_frequency_days ≤ Int.fdiv (now - last) msPerDay)

/-! ## Fetch options and the request's `maxReviews` -/

/-- Source `CONFIG.maxReviews`. -/
def configMaxReviews : Int := 9999

/-- Options object built by `buildFetchOptions`. -/
structure FetchOptions where
  maxReviews : Option Int
  reviewsStartDate : Option String
  deriving DecidableEq

/-- Source `buildFetchOptions(business, businessDir, getStartDate)`: `-1` is the
"fetch maximum" sentinel; any other `number_of_reviews` passes through. -/
def buildFetchOptions (numberOfReviews : Int)
    (getStartDate : Option (String → Option String)) (businessDir : String) :
    FetchOptions :=
  { maxReviews := some (if numberOfReviews = -1 then configMaxReviews else numberOfReviews)
    reviewsStartDate := match getStartDate with
      | none => none
      | some g => g businessDir }

/-- Source `maxReviews` sent by `createApifyFetcher`'s request body:
`options.maxReviews || CONFIG.maxReviews`. -/
def apifyRequestMaxReviews (optionsMaxReviews : Option Int) : Int :=
  jsOrI optionsMaxReviews configMaxReviews

/-- Source `maxReviews` sent by the Google `fetchReviews` request body
(`src/fetch-google-reviews.js`): `options.maxReviews || CONFIG.maxReviews`. -/
def googleRequestMaxReviews (optionsMaxReviews : Option Int) : Int :=
  jsOrI optionsMaxReviews configMaxReviews

/-! ## Orchestrator (`processBusinesses`, `createReviewFetcher`) -/

/-- A configured business as seen by the runner's selection filters. -/
structure Biz where
  slug : String
  hasPlatformField : Bool
  deriving DecidableEq

/-- Observable events of one run, in order. -/
inductive Event where
  | attempt (slug : String)
  | skip (slug : String)
  | writeConfig
  deriving DecidableEq

/-- Source `processBusinesses(businesses, processor, ensureDir, shouldProcess,
source)`: sequential loop, skipping cooled-down businesses; a processor
throw aborts the loop. Returns the event trace and the uncaught error. -/
def processBusinesses (proc : Biz → Except String Unit) (shouldProc : Biz → Bool) :
    List Biz → List Event × Option String
  | [] => ([], none)
  | b :: rest =>
    if !shouldProc b then
      let t := processBusinesses proc shouldProc rest
      (.skip b.slug :: t.1, t.2)
    else
      match proc b with
      | .error e => ([.attempt b.slug], some e)
      | .ok _ =>
        let t := processBusinesses proc shouldProc rest
        (.attempt b.slug :: t.1, t.2)

/-- Source `filterBySlug(targetSlug)`. -/
def filterBySlugF (targetSlug : Option String) (bs : List Biz) : List Biz :=
  match targetSlug with
  | none => bs
  | some s => bs.filter (fun b => b.slug == s)

/-- The businesses a run selects (platform-field filter then slug filter). -/
def selectedBusinesses (businesses : List Biz) (targetSlug : Option String) :
    List Biz :=
  filterBySlugF targetSlug (businesses.filter (·.hasPlatformField))

/-- Result of one platform run. -/
structure RunResult where
  trace : List Event
  exitOne : Bool
  deriving DecidableEq

/-- The runner produced by `createReviewFetcher`: token check, selection,
empty-selection early return, then `try { processBusinesses; saveConfig }
catch { exit(1) }` — the configuration write happens once, after the loop,
and only when no business threw. -/
def runMain (tokenPresent : Bool) (businesses : List Biz) (targetSlug : Option String)
    (proc : Biz → Except String Unit) (shouldProc : Biz → Bool) : RunResult :=
  if !tokenPresent then { trace := [], exitOne := true }
  else
    let selected := selectedBusinesses businesses targetSlug
    if selected.isEmpty then { trace := [], exitOne := false }
    else
      match processBusinesses proc shouldProc selected with
      | (t, some _) => { trace := t, exitOne := true }
      | (t, none) => { trace := t ++ [.writeConfig], exitOne := false }

/-! ## Helper lemmas -/

/-- Evaluating `a || d` on strings is the identity when the default is `""`. -/
theorem jsOrS_some_empty (b : String) : jsOrS (some b) "" = b := by
  unfold jsOrS
  split <;> simp_all

/-- Bounds for `a || d` on numbers, given bounds on both sides. -/
theorem jsOrI_bounds {a : Option Int} {d : Int}
    (ha : ∀ n, a = some n → 0 ≤ n ∧ n ≤ 5) (hd : 0 ≤ d ∧ d ≤ 5) :
    0 ≤ jsOrI a d ∧ jsOrI a d ≤ 5 := by
  cases h : a with
  | none => simpa [jsOrI] using hd
  | some n =>
    have := ha n h
    simp only [jsOrI]
    split
    · exact hd
    · exact this

/-- Floor-division characterization of the day-count comparison. -/
theorem fdiv_day_le_iff (freq d : Int) :
    (freq ≤ Int.fdiv d msPerDay) ↔ freq * msPerDay ≤ d := by
  rw [Int.fdiv_eq_ediv _ (by norm_num [msPerDay])]
  exact Int.le_ediv_iff_mul_le (by norm_num [msPerDay])

/-! ## C1: normalizer rating range -/

/-- C1 counterexample: a raw Trustpilot record whose string rating field is
`"6"` normalizes (without throwing) to `rating = 6`, which is outside
`0..5`, refuting the claim that every raw record yields a rating in `0..5`. -/
theorem c1_rating_counterexample :
    (normalizeTrustpilotReview { ratingValue := some "6" } 0).rating = 6 ∧
    ¬ (0 ≤ (normalizeTrustpilotReview { ratingValue := some "6" } 0).rating ∧
        (normalizeTrustpilotReview { ratingValue := some "6" } 0).rating ≤ 5) := by
  constructor
  · decide
  · decide

/-- C1 (amended): the three normalizers are total functions (they never
throw, by construction), Facebook ratings are `5` when recommended and `1`
otherwise — hence always in `0..5` — and the Google and Trustpilot ratings
lie in `0..5` whenever the raw numeric fields they are derived from
(Google `stars`/`rating`; the parsed Trustpilot `ratingValue`) lie in
`0..5` when present; derivation is first-field-wins with default `0`. -/
theorem c1_rating_range_amended
    (g : RawGoogleReview) (f : RawFacebookReview) (t : RawTrustpilotReview) (now : Int) :
    ((∀ n, g.stars = some n → 0 ≤ n ∧ n ≤ 5) →
     (∀ n, g.rating = some n → 0 ≤ n ∧ n ≤ 5) →
     0 ≤ (normalizeGoogleReview g now).rating ∧ (normalizeGoogleReview g now).rating ≤ 5) ∧
    ((f.isRecommended = some true → (normalizeFacebookReview f now).rating = 5) ∧
     (f.isRecommended ≠ some true → (normalizeFacebookReview f now).rating = 1) ∧
     (0 ≤ (normalizeFacebookReview f now).rating ∧ (normalizeFacebookReview f now).rating ≤ 5)) ∧
    ((∀ n, jsParseIntOpt t.ratingValue = some n → 0 ≤ n ∧ n ≤ 5) →
     0 ≤ (normalizeTrustpilotReview t now).rating ∧
       (normalizeTrustpilotReview t now).rating ≤ 5) := by
  refine ⟨?_, ⟨?_, ?_, ?_⟩, ?_⟩
  · intro hs hr
    exact jsOrI_bounds hs (jsOrI_bounds hr (by norm_num))
  · intro h
    simp [normalizeFacebookReview, h]
  · intro h
    simp [normalizeFacebookReview, h]
  · by_cases h : f.isRecommended = some true <;>
      simp [normalizeFacebookReview, h]
  · intro hp
    exact jsOrI_bounds hp (by norm_num)

/-- C1 witness: concrete in-range records for each platform. -/
theorem c1_rating_range_witness :
    (0 ≤ (normalizeGoogleReview { stars := some 4 } 7).rating ∧
      (normalizeGoogleReview { stars := some 4 } 7).rating ≤ 5) ∧
    (normalizeFacebookReview { isRecommended := some true } 7).rating = 5 ∧
    (0 ≤ (normalizeTrustpilotReview { ratingValue := some "5" } 7).rating ∧
      (normalizeTrustpilotReview { ratingValue := some "5" } 7).rating ≤ 5) := by
  have h := c1_rating_range_amended { stars := some 4 } { isRecommended := some true }
    { ratingValue := some "5" } 7
  refine ⟨h.1 ?_ ?_, h.2.1.1 rfl, h.2.2 ?_⟩
  · intro n hn
    cases hn
    decide
  · intro n hn
    cases hn
  · intro n hn
    have he : jsParseIntOpt (some "5") = some 5 := by decide
    rw [he] at hn
    cases hn
    decide

/-! ## C6: Trustpilot title/body combination -/

/-- C6: `buildTrustpilotContent` returns the body unchanged when the
(trimmed) title already leads the body (directly or ellipsis-truncated,
case-insensitively); otherwise it appends a period to a title lacking
terminal punctuation and joins it to a nonempty body with a blank line;
an absent title yields the body; including the three concrete examples. -/
theorem c6_buildTrustpilotContent :
    (∀ t b : String, t ≠ "" → shouldStripTitle (jsTrim t) b = true →
       buildTrustpilotContent (some t) (some b) = b) ∧
    (∀ t b : String, t ≠ "" → shouldStripTitle (jsTrim t) b = false → b ≠ "" →
       buildTrustpilotContent (some t) (some b) =
         (if endsWithPunct (jsTrim t) then jsTrim t else jsTrim t ++ ".") ++ "\n\n" ++ b) ∧
    (∀ b : String, buildTrustpilotContent none (some b) = b) ∧
    buildTrustpilotContent (some "Great Title") (some "Great Title product was excellent") =
      "Great Title product was excellent" ∧
    buildTrustpilotContent (some "Title") (some "Body") = "Title.\n\nBody" ∧
    buildTrustpilotContent none (some "Body") = "Body" := by
  refine ⟨?_, ?_, ?_, by decide, by decide, by decide⟩
  · intro t b ht hstrip
    simp [buildTrustpilotContent, ht, jsOrS_some_empty, hstrip]
  · intro t b ht hstrip hb
    simp [buildTrustpilotContent, ht, jsOrS_some_empty, hstrip, hb]
  · intro b
    simp [buildTrustpilotContent, jsOrS_some_empty]

/-- C6 witness: both conditional branches exercised at concrete inputs. -/
theorem c6_buildTrustpilotContent_witness :
    buildTrustpilotContent (some " Great Title ") (some "great title was earned") =
      "great title was earned" ∧
    buildTrustpilotContent (some "Nice") (some "Body text") = "Nice.\n\nBody text" := by
  refine ⟨?_, ?_⟩
  · have h := c6_buildTrustpilotContent.1 " Great Title " "great title was earned"
      (by decide) (by decide)
    exact h
  · have h := c6_buildTrustpilotContent.2.1 "Nice" "Body text"
      (by decide) (by decide) (by decide)
    simpa using h

/-! ## C10: zero review cap behaves as "fetch maximum" -/

/-- C10: `buildFetchOptions` passes `number_of_reviews = 0` through
unchanged (only `-1` maps to the configured maximum), but both request
builders compute `options.maxReviews || CONFIG.maxReviews`, so the falsy
`0` is replaced by the maximum `9999` in the request body. -/
theorem c10_zero_cap_is_max :
    (∀ (g : Option (String → Option String)) (dir : String),
       (buildFetchOptions 0 g dir).maxReviews = some 0) ∧
    (∀ n : Int, n ≠ -1 → ∀ (g : Option (String → Option String)) (dir : String),
       (buildFetchOptions n g dir).maxReviews = some n) ∧
    (∀ (g : Option (String → Option String)) (dir : String),
       (buildFetchOptions (-1) g dir).maxReviews = some configMaxReviews) ∧
    apifyRequestMaxReviews (some 0) = configMaxReviews ∧
    googleRequestMaxReviews (some 0) = configMaxReviews ∧
    configMaxReviews = 9999 ∧ (configMaxReviews ≠ 0) := by
  refine ⟨?_, ?_, ?_, by decide, by decide, by decide, by decide⟩
  · intro g dir
    simp [buildFetchOptions]
  · intro n hn g dir
    simp [buildFetchOptions, hn]
  · intro g dir
    simp [buildFetchOptions]

/-- C10 witness: a business capped at 0 reviews sends `maxReviews = 9999`. -/
theorem c10_zero_cap_is_max_witness :
    (buildFetchOptions 0 none "data/acme").maxReviews = some 0 ∧
    (buildFetchOptions 3 none "data/acme").maxReviews = some 3 ∧
    apifyRequestMaxReviews (buildFetchOptions 0 none "data/acme").maxReviews = 9999 := by
  have h := c10_zero_cap_is_max
  refine ⟨h.1 none "data/acme", h.2.1 3 (by decide) none "data/acme", ?_⟩
  rw [h.1 none "data/acme"]
  exact h.2.2.2.1.trans h.2.2.2.2.2.1

/-! ## C4: fetch-due decision -/

/-- C4: `shouldFetch` is true when neither a platform-specific nor a
generic timestamp exists; with a recorded timestamp it is true exactly when
the floored elapsed whole days reach `fetch_frequency_days`
(equivalently `freq * msPerDay ≤ now - last`); in particular exactly
`fetch_frequency_days` elapsed days yields true. -/
theorem c4_shouldFetch (now : Int) (b : BizFetch) (s : String) :
    ((b.last_fetched_by s = none → b.last_fetched = none →
        shouldFetch now b (some s) = true) ∧
     (b.last_fetched = none → shouldFetch now b none = true)) ∧
    (∀ last, b.last_fetched_by s = some last →
       (shouldFetch now b (some s) = true ↔
         b.fetch_frequency_days * msPerDay ≤ now - last)) ∧
    (∀ last, b.last_fetched_by s = none → b.last_fetched = some last →
       (shouldFetch now b (some s) = true ↔
         b.fetch_frequency_days * msPerDay ≤ now - last)) ∧
    (∀ last, b.last_fetched = some last →
       (shouldFetch now b none = true ↔
         b.fetch_frequency_days * msPerDay ≤ now - last)) ∧
    (∀ last, b.last_fetched_by s = some last →
       now - last = b.fetch_frequency_days * msPerDay →
       shouldFetch now b (some s) = true) := by
  refine ⟨⟨?_, ?_⟩, ?_, ?_, ?_, ?_⟩
  · intro h1 h2
    simp [shouldFetch, jsOrOpt, h1, h2]
  · intro h2
    simp [shouldFetch, jsOrOpt, h2]
  · intro last h1
    simp only [shouldFetch, jsOrOpt, h1, decide_eq_true_eq]
    exact fdiv_day_le_iff _ _
  · intro last h1 h2
    simp only [shouldFetch, jsOrOpt, h1, h2, decide_eq_true_eq]
    exact fdiv_day_le_iff _ _
  · intro last h2
    simp only [shouldFetch, jsOrOpt, h2, decide_eq_true_eq]
    exact fdiv_day_le_iff _ _
  · intro last h1 heq
    simp only [shouldFetch, jsOrOpt, h1, decide_eq_true_eq]
    rw [fdiv_day_le_iff, heq]

/-- A business that has never been fetched. -/
def bizNeverFetched : BizFetch :=
  { last_fetched := none, last_fetched_by := fun _ => none, fetch_frequency_days := 7 }

/-- A business last fetched (for Google) at the epoch, cooldown 7 days. -/
def bizFetchedAtEpoch : BizFetch :=
  { last_fetched := none, last_fetched_by := fun _ => some 0, fetch_frequency_days := 7 }

/-- C4 witness: never-fetched yields true; the exact-boundary elapsed time
(7 configured days, 7 whole days elapsed) yields true. -/
theorem c4_shouldFetch_witness :
    shouldFetch 0 bizNeverFetched (some "google") = true ∧
    shouldFetch (7 * 86400000) bizFetchedAtEpoch (some "google") = true := by
  constructor
  · exact (c4_shouldFetch 0 bizNeverFetched "google").1.1 rfl rfl
  · exact (c4_shouldFetch (7 * 86400000) bizFetchedAtEpoch "google").2.2.2.2 0 rfl (by decide)

/-! ## C5: latest review date -/

/-- The reducer used by `getLatestReviewDate` is `max`. -/
theorem foldMaxDate_eq_foldl_max (d0 : Int) (l : List Int) :
    foldMaxDate d0 l = l.foldl max d0 := by
  unfold foldMaxDate
  have h : (fun mx d : Int => if d > mx then d else mx) = max := by
    funext mx d
    rcases le_or_lt d mx with h | h
    · simp [not_lt.2 h, max_eq_left h]
    · simp [h, max_eq_right h.le]
  rw [h]

/-- A left fold of `max` lands on its seed or on a list element. -/
theorem foldl_max_mem (l : List Int) (d0 : Int) :
    l.foldl max d0 = d0 ∨ l.foldl max d0 ∈ l := by
  induction l generalizing d0 with
  | nil => exact .inl rfl
  | cons a t ih =>
    rcases ih (max d0 a) with h | h
    · rcases max_choice d0 a with he | he
      · exact .inl (by rw [List.foldl_cons, h, he])
      · refine .inr ?_
        rw [List.foldl_cons, h, he]
        exact List.mem_cons_self a t
    · exact .inr (List.mem_cons_of_mem a h)

/-- A left fold of `max` bounds its seed and every list element. -/
theorem foldl_max_le (l : List Int) (d0 : Int) :
    d0 ≤ l.foldl max d0 ∧ ∀ x ∈ l, x ≤ l.foldl max d0 := by
  induction l generalizing d0 with
  | nil => exact ⟨le_refl _, by simp⟩
  | cons a t ih =>
    obtain ⟨h1, h2⟩ := ih (max d0 a)
    refine ⟨le_trans (le_max_left _ _) h1, ?_⟩
    intro x hx
    rcases List.mem_cons.1 hx with rfl | hx
    · exact le_trans (le_max_right _ _) h1
    · exact h2 x hx

/-- The valid dates of concatenated directories concatenate. -/
theorem validReviewDates_append (l1 l2 : List DirFile) :
    validReviewDates (l1 ++ l2) = validReviewDates l1 ++ validReviewDates l2 := by
  simp [validReviewDates, List.filter_append, List.filterMap_append]

/-- A non-`.json`, unreadable, or invalid-date file contributes no date. -/
theorem validReviewDates_bad (bad : DirFile)
    (h : endsWithCh bad.name.data ".json".data = false ∨ bad.content = none ∨
      bad.content = some none) :
    validReviewDates [bad] = [] := by
  rcases h with h | h | h <;> simp [validReviewDates, h]

/-- Source `getLatestReviewDate` depends only on the extracted valid dates. -/
theorem getLatestReviewDate_congr (f1 f2 : List DirFile)
    (h : validReviewDates f1 = validReviewDates f2) :
    getLatestReviewDate (some f1) = getLatestReviewDate (some f2) := by
  simp only [getLatestReviewDate, h]

/-- Example directory: reviews dated 2024-01-01 and 2024-06-15. -/
def exampleDir : List DirFile :=
  [{ name := "alice-2024-01-01.json", content := some (some 1704067200000) },
   { name := "bob-2024-06-15.json", content := some (some 1718409600000) }]

/-- A directory whose only file cannot be read as JSON. -/
def brokenOnlyDir : List DirFile :=
  [{ name := "broken.json", content := none }]

/-- C5: `getLatestReviewDate` returns `none` for a missing directory and
when no valid dates are found; files that are not `.json`, are unreadable,
or have unparseable dates are skipped without affecting the scan; otherwise
the result is the maximum valid date plus one day as `YYYY-MM-DD`; and the
example directory (2024-01-01, 2024-06-15) yields `"2024-06-16"`. -/
theorem c5_getLatestReviewDate :
    getLatestReviewDate none = none ∧
    (∀ files : List DirFile, validReviewDates files = [] →
       getLatestReviewDate (some files) = none) ∧
    (∀ files : List DirFile, validReviewDates files ≠ [] →
       ∃ m, m ∈ validReviewDates files ∧ (∀ d ∈ validReviewDates files, d ≤ m) ∧
         getLatestReviewDate (some files) = some (formatDateYMD (m + msPerDay))) ∧
    (∀ (pre post : List DirFile) (bad : DirFile),
       (endsWithCh bad.name.data ".json".data = false ∨ bad.content = none ∨
        bad.content = some none) →
       getLatestReviewDate (some (pre ++ bad :: post)) =
         getLatestReviewDate (some (pre ++ post))) ∧
    getLatestReviewDate (some exampleDir) = some "2024-06-16" := by
  refine ⟨rfl, ?_, ?_, ?_, by decide⟩
  · intro files h
    simp only [getLatestReviewDate, h]
  · intro files h
    obtain ⟨d0, rest, hl⟩ := List.exists_cons_of_ne_nil h
    refine ⟨foldMaxDate d0 (validReviewDates files), ?_, ?_, ?_⟩
    · rw [hl, foldMaxDate_eq_foldl_max]
      rcases foldl_max_mem (d0 :: rest) d0 with he | he
      · rw [he]; exact List.mem_cons_self d0 rest
      · exact he
    · intro d hd
      rw [foldMaxDate_eq_foldl_max]
      exact (foldl_max_le (validReviewDates files) d0).2 d hd
    · simp only [getLatestReviewDate]
      rw [hl]
  · intro pre post bad hbad
    apply getLatestReviewDate_congr
    have h1 : (bad :: post) = [bad] ++ post := rfl
    rw [h1, validReviewDates_append, validReviewDates_append,
      validReviewDates_bad bad hbad, validReviewDates_append]
    simp

/-- C5 witness: the example directory has maximum date 2024-06-15 and the
scan of an unreadable-only directory yields `none`. -/
theorem c5_getLatestReviewDate_witness :
    (∃ m, m ∈ validReviewDates exampleDir ∧ (∀ d ∈ validReviewDates exampleDir, d ≤ m) ∧
       getLatestReviewDate (some exampleDir) = some (formatDateYMD (m + msPerDay))) ∧
    getLatestReviewDate (some brokenOnlyDir) = none := by
  refine ⟨c5_getLatestReviewDate.2.2.1 exampleDir (by decide), ?_⟩
  exact c5_getLatestReviewDate.2.1 brokenOnlyDir (by decide)

/-! ## C7: trimmedness of normalized Trustpilot content -/

/-- String concatenation concatenates the character data. -/
theorem data_append (a b : String) : (a ++ b).data = a.data ++ b.data := by
  cases a
  cases b
  rfl

/-- The head surviving `dropWhile p` fails `p`. -/
theorem head_dropWhile_not (p : Char → Bool) :
    ∀ (l : List Char) (c : Char), (l.dropWhile p).head? = some c → p c = false := by
  intro l
  induction l with
  | nil =>
    intro c h
    simp [List.dropWhile] at h
  | cons a t ih =>
    intro c h
    by_cases hpa : p a
    · rw [List.dropWhile_cons_of_pos hpa] at h
      exact ih c h
    · rw [List.dropWhile_cons_of_neg hpa] at h
      cases h
      exact Bool.of_not_eq_true hpa

/-- Right-trimming splits the list into the trimmed part and a remainder. -/
theorem trimRightCh_split (l : List Char) : ∃ t, l = trimRightCh l ++ t := by
  refine ⟨(l.reverse.takeWhile jsWsChar).reverse, ?_⟩
  unfold trimRightCh
  conv_lhs => rw [← l.reverse_reverse,
    ← List.takeWhile_append_dropWhile jsWsChar l.reverse]
  rw [List.reverse_append]

/-- The head of the right-trimmed list is the head of the list. -/
theorem head_trimRightCh (l : List Char) (c : Char)
    (h : (trimRightCh l).head? = some c) : l.head? = some c := by
  obtain ⟨t, ht⟩ := trimRightCh_split l
  have hne : trimRightCh l ≠ [] := by
    intro he
    rw [he] at h
    cases h
  rw [ht, List.head?_append_of_ne_nil _ hne]
  exact h

/-- A fully trimmed character list has no leading whitespace. -/
theorem noLead_jsTrimCh (l : List Char) : noLeadWsB (jsTrimCh l) = true := by
  unfold noLeadWsB
  cases hh : (jsTrimCh l).head? with
  | none => rfl
  | some c =>
    have h2 : (trimLeftCh l).head? = some c := head_trimRightCh _ _ hh
    have h3 := head_dropWhile_not jsWsChar l c h2
    simp [h3]

/-- A fully trimmed character list has no trailing whitespace. -/
theorem noTrail_jsTrimCh (l : List Char) : noLeadWsB (jsTrimCh l).reverse = true := by
  unfold jsTrimCh trimRightCh
  rw [List.reverse_reverse]
  unfold noLeadWsB
  cases hh : ((trimLeftCh l).reverse.dropWhile jsWsChar).head? with
  | none => rfl
  | some c => simp [head_dropWhile_not jsWsChar _ c hh]

/-- Prepending a nonempty whitespace-free-headed list keeps the head
whitespace-free. -/
theorem noLead_append (a b : List Char) (ha : a ≠ []) (h : noLeadWsB a = true) :
    noLeadWsB (a ++ b) = true := by
  unfold noLeadWsB at *
  rw [List.head?_append_of_ne_nil _ ha]
  exact h

/-- A string is empty exactly when its data is. -/
theorem data_eq_nil_iff (s : String) : s.data = [] ↔ s = "" := by
  cases s with
  | mk d =>
    constructor
    · intro h
      have hd : d = [] := h
      rw [hd]
    · intro h
      exact congrArg String.data h

/-- Branch equation: absent title yields the body. -/
theorem buildTP_none (b : String) : buildTrustpilotContent none (some b) = b := by
  simp [buildTrustpilotContent, jsOrS_some_empty]

/-- Branch equation: empty (falsy) title yields the body. -/
theorem buildTP_emptyTitle (b : String) :
    buildTrustpilotContent (some "") (some b) = b := by
  simp [buildTrustpilotContent, jsOrS_some_empty]

/-- Branch equation: a matched title is stripped, the body returned. -/
theorem buildTP_strip (t b : String) (ht : t ≠ "")
    (hs : shouldStripTitle (jsTrim t) b = true) :
    buildTrustpilotContent (some t) (some b) = b := by
  simp [buildTrustpilotContent, ht, jsOrS_some_empty, hs]

/-- Branch equation: unmatched title, nonempty body: punctuated title plus
blank line plus body. -/
theorem buildTP_join (t b : String) (ht : t ≠ "")
    (hs : shouldStripTitle (jsTrim t) b = false) (hb : b ≠ "") :
    buildTrustpilotContent (some t) (some b) =
      (if endsWithPunct (jsTrim t) then jsTrim t else jsTrim t ++ ".") ++ "\n\n" ++ b := by
  simp [buildTrustpilotContent, ht, jsOrS_some_empty, hs, hb]

/-- Branch equation: unmatched title, empty body: the punctuated title. -/
theorem buildTP_titleOnly (t : String) (ht : t ≠ "")
    (hs : shouldStripTitle (jsTrim t) "" = false) :
    buildTrustpilotContent (some t) (some "") =
      (if endsWithPunct (jsTrim t) then jsTrim t else jsTrim t ++ ".") := by
  simp [buildTrustpilotContent, ht, jsOrS_some_empty, hs]

/-- The body argument may be replaced by its defaulted string value. -/
theorem buildTP_normBody (tt b' : Option String) :
    buildTrustpilotContent tt b' = buildTrustpilotContent tt (some (jsOrS b' "")) := by
  simp only [buildTrustpilotContent, jsOrS_some_empty]

/-- C7 counterexample: a Trustpilot record with no title and body `" x "`
normalizes to content `" x "`, which has leading and trailing whitespace,
refuting the claim that the normalizer always produces a trimmed string. -/
theorem c7_trimmed_counterexample :
    (normalizeTrustpilotReview { reviewText := some " x " } 0).content = " x " ∧
    ¬ isTrimmedS (normalizeTrustpilotReview { reviewText := some " x " } 0).content := by
  constructor
  · decide
  · decide

/-- C7 (amended): the normalizer never trims the body itself — when the
title is absent or stripped the content is the body verbatim — but whenever
the raw `reviewText` is already trimmed (or absent), the produced content
is trimmed, including the case where a punctuated title is prepended to the
body separated by a blank line (the trimmed title supplies the head, the
body the tail). -/
theorem c7_trimmed_amended (r : RawTrustpilotReview) (now : Int)
    (h : isTrimmedS (jsOrS r.reviewText "")) :
    isTrimmedS (normalizeTrustpilotReview r now).content := by
  show isTrimmedS (buildTrustpilotContent r.reviewTitle r.reviewText)
  rw [buildTP_normBody]
  set b : String := jsOrS r.reviewText "" with hb
  cases htt : r.reviewTitle with
  | none => rw [buildTP_none]; exact h
  | some t =>
    by_cases ht : t = ""
    · rw [ht, buildTP_emptyTitle]; exact h
    · by_cases hstrip : shouldStripTitle (jsTrim t) b = true
      · rw [buildTP_strip t b ht hstrip]; exact h
      · have hstrip' : shouldStripTitle (jsTrim t) b = false :=
          Bool.of_not_eq_true hstrip
        have htitle : (jsTrim t).data ≠ [] := by
          intro he
          apply hstrip
          unfold shouldStripTitle
          rw [show lowerCh (jsTrim t).data = [] from by rw [he]; rfl]
          simp [startsWithCh]
        have hlead2 : noLeadWsB
            (if endsWithPunct (jsTrim t) then jsTrim t else jsTrim t ++ ".").data = true := by
          split
          · exact noLead_jsTrimCh t.data
          · rw [data_append]
            exact noLead_append _ _ htitle (noLead_jsTrimCh t.data)
        have hne2 : (if endsWithPunct (jsTrim t) then jsTrim t
            else jsTrim t ++ ".").data ≠ [] := by
          split
          · exact htitle
          · rw [data_append]
            simp
        have htrail2 : noLeadWsB
            (if endsWithPunct (jsTrim t) then jsTrim t
              else jsTrim t ++ ".").data.reverse = true := by
          split
          · exact noTrail_jsTrimCh t.data
          · rw [data_append, List.reverse_append]
            exact noLead_append _ _ (by decide) (by decide)
        by_cases hbody : b = ""
        · rw [hbody] at hstrip' ⊢
          rw [buildTP_titleOnly t ht hstrip']
          exact ⟨hlead2, htrail2⟩
        · rw [buildTP_join t b ht hstrip' hbody]
          have hbd : b.data ≠ [] := by
            intro he
            exact hbody ((data_eq_nil_iff _).1 he)
          constructor
          · rw [data_append, data_append]
            refine noLead_append _ _ ?_ (noLead_append _ _ hne2 hlead2)
            intro hx
            exact hne2 (List.append_eq_nil.1 hx).1
          · rw [data_append, List.reverse_append]
            exact noLead_append _ _ (by simpa using hbd) h.2

/-- Trustpilot record with a separate title and an already-trimmed body. -/
def tpTitledRecord : RawTrustpilotReview :=
  { reviewTitle := some "Nice", reviewText := some "Body text" }

/-- C7 witness: with a trimmed body, the title-prepended content is trimmed. -/
theorem c7_trimmed_witness :
    isTrimmedS (normalizeTrustpilotReview tpTitledRecord 0).content :=
  c7_trimmed_amended tpTitledRecord 0 (by decide)

/-! ## C2: idempotent save -/

/-- A freshly written path exists. -/
theorem existsSync_writeFileW_self (p : String) (c : FileContent) (w : World) :
    existsSync (writeFileW p c w).files p = true := by
  simp [existsSync, writeFileW]

/-- C2: saving a review whose derived file is absent writes it and returns
true; an immediately repeated save with the same author and date derives
the same filename, returns false, and leaves the world untouched — in
particular it makes no thumbnail acquisition attempt (the download-entry
counter and the network counter are unchanged because the whole world is). -/
theorem c2_saveReview_idempotent (env : NetEnv) (fuel : Nat) (r : Review)
    (dir source : String) (now : Int) (w : World) (ms : Int) (hms : r.date = some ms)
    (hfresh : existsSync w.files
      (dir ++ "/" ++ formatFilename r.author r.date now) = false) :
    (saveReview env fuel r dir source now w).1 = .ok true ∧
    (saveReview env fuel r dir source now
        (saveReview env fuel r dir source now w).2).1 = .ok false ∧
    (saveReview env fuel r dir source now
        (saveReview env fuel r dir source now w).2).2 =
      (saveReview env fuel r dir source now w).2 := by
  have hfresh' : ¬ (existsSync w.files
      (dir ++ "/" ++ formatFilename r.author r.date now) = true) := by
    simp [hfresh]
  have e1 : saveReview env fuel r dir source now w =
      (.ok true,
        writeFileW (dir ++ "/" ++ formatFilename r.author r.date now)
          (.review
            { author := r.author
              authorUrl := r.authorUrl
              rating := r.rating
              content := r.content
              dateIso := isoString ms
              userId := r.userId
              thumbnail := (tryDownloadThumbnail env fuel r w).1
              source := source })
          (tryDownloadThumbnail env fuel r w).2) := by
    unfold saveReview
    rw [if_neg hfresh']
    simp only [buildReviewData, hms]
  refine ⟨by rw [e1], ?_, ?_⟩
  · rw [e1]
    unfold saveReview
    rw [if_pos (existsSync_writeFileW_self _ _ _)]
  · rw [e1]
    unfold saveReview
    rw [if_pos (existsSync_writeFileW_self _ _ _)]

/-- Oracles for witnesses: dead network, failing decoder, failing curl. -/
def stubEnv : NetEnv :=
  { net := fun _ => .timeout, sharp := fun _ _ => none, curl := fun _ => none }

/-- The empty world. -/
def emptyWorld : World := { files := [], netCalls := 0, downloadCalls := 0 }

/-- A concrete normalized review. -/
def reviewEx : Review :=
  { content := "Lovely service, highly recommended"
    date := some 1704067200000
    rating := 5
    author := "Alice Smith"
    authorUrl := ""
    photoUrl := ""
    userId := none }

/-- C2 witness: a concrete double save yields `(ok true, ok false)` with an
unchanged world on the second call. -/
theorem c2_saveReview_idempotent_witness :
    (saveReview stubEnv 1 reviewEx "data/acme" "google" 0 emptyWorld).1 = .ok true ∧
    (saveReview stubEnv 1 reviewEx "data/acme" "google" 0
        (saveReview stubEnv 1 reviewEx "data/acme" "google" 0 emptyWorld).2).1 = .ok false ∧
    (saveReview stubEnv 1 reviewEx "data/acme" "google" 0
        (saveReview stubEnv 1 reviewEx "data/acme" "google" 0 emptyWorld).2).2 =
      (saveReview stubEnv 1 reviewEx "data/acme" "google" 0 emptyWorld).2 :=
  c2_saveReview_idempotent stubEnv 1 reviewEx "data/acme" "google" 0 emptyWorld
    1704067200000 rfl (by decide)

/-! ## C3: thumbnail idempotency short-circuit -/

/-- A world already holding both derived outputs for user id `alice`. -/
def bothExistWorld : World :=
  { files := [((getImagePaths "alice").filepath1x, .img []),
              ((getImagePaths "alice").filepath2x, .img [])]
    netCalls := 0
    downloadCalls := 0 }

/-- C3 counterexample: with both output files for `alice` on disk but an
empty (falsy) `photoUrl`, `downloadAndProcessImage` returns `false` — the
input-truthiness precondition runs before the existence short-circuit — so
the claim is false for empty inputs. -/
theorem c3_idempotent_counterexample :
    imageFilesExist bothExistWorld.files (getImagePaths "alice") = true ∧
    (downloadAndProcessImage stubEnv 1 "" "alice" bothExistWorld).1 = false := by
  constructor
  · decide
  · decide

/-- C3 (amended): for every nonempty `photoUrl` and nonempty `userId`, if
both derived output files already exist, `downloadAndProcessImage` returns
true, issues no network request, and performs no file write at all. -/
theorem c3_idempotent_amended (env : NetEnv) (fuel : Nat) (url userId : String)
    (w : World) (hu : url ≠ "") (hi : userId ≠ "")
    (h1 : existsSync w.files (getImagePaths userId).filepath1x = true)
    (h2 : existsSync w.files (getImagePaths userId).filepath2x = true) :
    (downloadAndProcessImage env (fuel + 1) url userId w).1 = true ∧
    (downloadAndProcessImage env (fuel + 1) url userId w).2.netCalls = w.netCalls ∧
    (downloadAndProcessImage env (fuel + 1) url userId w).2.files = w.files := by
  have hv : validateImageInputs url userId = true := by
    simp [validateImageInputs, hu, hi]
  have hp : checkImagePreconditions url userId
      ({ w with downloadCalls := w.downloadCalls + 1 } : World).files = .halt true := by
    show checkImagePreconditions url userId w.files = .halt true
    unfold checkImagePreconditions
    rw [hv]
    simp [imageFilesExist, h1, h2]
  refine ⟨?_, ?_, ?_⟩ <;>
    · simp only [downloadAndProcessImage]
      rw [hp]

/-- C3 witness: concrete short-circuit with a live-looking URL. -/
theorem c3_idempotent_witness :
    (downloadAndProcessImage stubEnv 1 "https://example.com/a.png" "alice"
        bothExistWorld).1 = true ∧
    (downloadAndProcessImage stubEnv 1 "https://example.com/a.png" "alice"
        bothExistWorld).2.netCalls = bothExistWorld.netCalls ∧
    (downloadAndProcessImage stubEnv 1 "https://example.com/a.png" "alice"
        bothExistWorld).2.files = bothExistWorld.files :=
  c3_idempotent_amended stubEnv 0 "https://example.com/a.png" "alice" bothExistWorld
    (by decide) (by decide) (by decide) (by decide)

/-! ## C8: response handling by status -/

/-- Oracles whose decoder is the identity (decoding always succeeds). -/
def idSharpEnv : NetEnv :=
  { net := fun _ => .timeout, sharp := fun _ b => some b, curl := fun _ => none }

/-- A retry continuation that is never supposed to run. -/
def retryStub : String → World → Bool × World := fun _ w => (false, w)

/-- C8 counterexample: a non-redirect `201` response — a 2xx status — with
a perfectly decodable body resolves `false` and writes nothing, refuting
the claim that every 2xx status leads to the outputs being written. -/
theorem c8_status_counterexample :
    isRedirectB 201 none = false ∧
    (200 ≤ 201 ∧ 201 < 300) ∧
    createResponseHandler idSharpEnv retryStub (getImagePaths "bob") 201 none
      [1, 2, 3] emptyWorld = (false, emptyWorld) := by
  refine ⟨by decide, by decide, by decide⟩

/-- C8 (amended): for every non-redirect response, only status exactly 200
is processed: any other status (2xx included) resolves `false` with the
world unchanged; on 200 the buffered body is decoded and both resized
outputs are written (result true), and a decode failure resolves `false`. -/
theorem c8_only_200_processed (env : NetEnv) (retry : String → World → Bool × World)
    (p : ImagePaths) (status : Nat) (location : Option String) (body : List Nat)
    (w : World) (hnr : isRedirectB status location = false) :
    (status ≠ 200 →
      createResponseHandler env retry p status location body w = (false, w)) ∧
    (status = 200 → ∀ o1 o2, env.sharp 48 body = some o1 → env.sharp 96 body = some o2 →
      createResponseHandler env retry p status location body w =
        (true, writeFileW p.filepath2x (.img o2) (writeFileW p.filepath1x (.img o1) w))) ∧
    (status = 200 → env.sharp 48 body = none →
      createResponseHandler env retry p status location body w = (false, w)) := by
  have hnr' : ¬ (isRedirectB status location = true) := by simp [hnr]
  refine ⟨?_, ?_, ?_⟩
  · intro hs
    unfold createResponseHandler
    rw [if_neg hnr']
    unfold handleImageResponse
    rw [if_pos hs]
  · intro hs o1 o2 hs1 hs2
    unfold createResponseHandler
    rw [if_neg hnr']
    unfold handleImageResponse
    rw [if_neg (by simp [hs])]
    unfold processImageBuffer
    rw [hs1, hs2]
  · intro hs hs1
    unfold createResponseHandler
    rw [if_neg hnr']
    unfold handleImageResponse
    rw [if_neg (by simp [hs])]
    unfold processImageBuffer
    rw [hs1]

/-- C8 witness: a 404 resolves false; a 200 with a decodable body writes
the 48px then the 96px output and resolves true. -/
theorem c8_only_200_processed_witness :
    createResponseHandler idSharpEnv retryStub (getImagePaths "bob") 404 none
      [7] emptyWorld = (false, emptyWorld) ∧
    createResponseHandler idSharpEnv retryStub (getImagePaths "bob") 200 none
      [7] emptyWorld =
      (true, writeFileW (getImagePaths "bob").filepath2x (.img [7])
        (writeFileW (getImagePaths "bob").filepath1x (.img [7]) emptyWorld)) := by
  have h404 := c8_only_200_processed idSharpEnv retryStub (getImagePaths "bob") 404 none
    [7] emptyWorld (by decide)
  have h200 := c8_only_200_processed idSharpEnv retryStub (getImagePaths "bob") 200 none
    [7] emptyWorld (by decide)
  exact ⟨h404.1 (by decide), h200.2.1 rfl [7] [7] rfl rfl⟩

/-! ## C9: configuration persisted once, only on full success -/

/-- The business-processing loop itself never writes the configuration. -/
theorem processBusinesses_no_write (proc : Biz → Except String Unit) (sp : Biz → Bool) :
    ∀ bs : List Biz, (processBusinesses proc sp bs).1.count Event.writeConfig = 0 := by
  intro bs
  induction bs with
  | nil => rfl
  | cons b t ih =>
    unfold processBusinesses
    cases hb : sp b with
    | false => simp [hb, List.count_cons, ih]
    | true =>
      cases hp : proc b with
      | error e => simp [hb, hp, List.count_cons]
      | ok u => simp [hb, hp, List.count_cons, ih]

/-- Shape of a nonempty, token-present run. -/
theorem runMain_eq (businesses : List Biz) (targetSlug : Option String)
    (proc : Biz → Except String Unit) (sp : Biz → Bool)
    (hsel : selectedBusinesses businesses targetSlug ≠ []) :
    runMain true businesses targetSlug proc sp =
      match (processBusinesses proc sp (selectedBusinesses businesses targetSlug)).2 with
      | some _ =>
        { trace := (processBusinesses proc sp (selectedBusinesses businesses targetSlug)).1
          exitOne := true }
      | none =>
        { trace := (processBusinesses proc sp (selectedBusinesses businesses targetSlug)).1
            ++ [Event.writeConfig]
          exitOne := false } := by
  unfold runMain
  rw [if_neg (by simp)]
  rw [if_neg (by simp [List.isEmpty_iff, hsel])]
  rcases processBusinesses proc sp (selectedBusinesses businesses targetSlug) with ⟨tr, err⟩
  cases err <;> rfl

/-- C9 counterexample: a run with the token present and an empty selection
completes successfully (exit code zero, no uncaught error) yet never writes
the configuration, refuting "written exactly once" for every such run. -/
theorem c9_config_counterexample :
    (runMain true [] none (fun _ => .ok ()) (fun _ => true)).exitOne = false ∧
    (runMain true [] none (fun _ => .ok ()) (fun _ => true)).trace.count
      Event.writeConfig = 0 := by
  constructor
  · decide
  · decide

/-- C9 (amended): for a run with the token present and a nonempty
selection: if processing any business throws, the run exits nonzero and the
configuration is never written (no earlier timestamp update is persisted);
if no business throws, the run exits zero and the configuration is written
exactly once, as the final event after all businesses were processed. -/
theorem c9_config_write_amended (businesses : List Biz) (targetSlug : Option String)
    (proc : Biz → Except String Unit) (sp : Biz → Bool)
    (hsel : selectedBusinesses businesses targetSlug ≠ []) :
    (∀ e, (processBusinesses proc sp (selectedBusinesses businesses targetSlug)).2 = some e →
      (runMain true businesses targetSlug proc sp).exitOne = true ∧
      (runMain true businesses targetSlug proc sp).trace.count Event.writeConfig = 0) ∧
    ((processBusinesses proc sp (selectedBusinesses businesses targetSlug)).2 = none →
      (runMain true businesses targetSlug proc sp).exitOne = false ∧
      (runMain true businesses targetSlug proc sp).trace =
        (processBusinesses proc sp (selectedBusinesses businesses targetSlug)).1
          ++ [Event.writeConfig] ∧
      (runMain true businesses targetSlug proc sp).trace.count Event.writeConfig = 1 ∧
      (runMain true businesses targetSlug proc sp).trace.getLast? =
        some Event.writeConfig) := by
  constructor
  · intro e he
    rw [runMain_eq businesses targetSlug proc sp hsel, he]
    exact ⟨rfl, processBusinesses_no_write proc sp _⟩
  · intro he
    rw [runMain_eq businesses targetSlug proc sp hsel, he]
    refine ⟨rfl, rfl, ?_, ?_⟩
    · rw [List.count_append, processBusinesses_no_write proc sp]
      rfl
    · exact List.getLast?_concat _

/-- A configured business visible to the platform filter. -/
def bizAcme : Biz := { slug := "acme", hasPlatformField := true }

/-- C9 witness: a one-business successful run writes the configuration
exactly once, as its last event. -/
theorem c9_config_write_witness :
    (runMain true [bizAcme] none (fun _ => .ok ()) (fun _ => true)).exitOne = false ∧
    (runMain true [bizAcme] none (fun _ => .ok ()) (fun _ => true)).trace.count
      Event.writeConfig = 1 ∧
    (runMain true [bizAcme] none (fun _ => .ok ()) (fun _ => true)).trace.getLast? =
      some Event.writeConfig := by
  have h := (c9_config_write_amended [bizAcme] none (fun _ => .ok ()) (fun _ => true)
    (by decide)).2 (by decide)
  exact ⟨h.1, h.2.2.1, h.2.2.2⟩

end GRI
